import Mathlib

/-!
Shallow embedding of the RAPID connectivity-file tool
(`toolbox/scripts/CreateNetworkConnectivityFile.py`).

The tool's `execute` method reads one table row per stream reach, each
carrying the integer fields HydroID and NextDownID, and writes one CSV row
per reach: the HydroID, the NextDownID with the sentinel -1 remapped to 0,
the number of upstream reaches, the upstream HydroIDs, and zero padding up
to a fixed width (the optional `max_nbr_upstreams` parameter when supplied,
otherwise the observed maximum upstream count).  The embedding below
mirrors that code line by line over `List`; machine integers become `Int`.
-/

/-- Reach record: one row of the input drainage-line table, holding the two
integer fields (`HydroID`, `NextDownID`) that `execute` reads. -/
structure Reach where
  id : Int
  down : Int
deriving DecidableEq, Repr

/-- HydroID column of the table, in table order (`np_table[stream_id]`). -/
def tableIds (table : List Reach) : List Int :=
  table.map Reach.id

/-- Ascending sort of the whole HydroID column, duplicates kept
(`NUM.sort(np_table[stream_id])`); `execute` iterates over this list. -/
def sortedIds (table : List Reach) : List Int :=
  List.insertionSort (· ≤ ·) (tableIds table)

/-- Upstream HydroIDs of `hydroid`: the HydroID of every table row whose
NextDownID equals `hydroid`, in table order
(`np_table[np_table[next_down_id]==hydroid][stream_id]`). -/
def list_upstreamID (table : List Reach) (hydroid : Int) : List Int :=
  (table.filter (fun r => decide (r.down = hydroid))).map Reach.id

/-- NextDownID of the first table row whose HydroID equals `hydroid`
(`np_table[np_table[stream_id]==hydroid][next_down_id][0]`).  The Python
indexes element 0 of the selection; in `execute` the selection is never
empty because `hydroid` is drawn from the table itself, so the `headD`
default 0 is never taken there. -/
def firstNextDownID (table : List Reach) (hydroid : Int) : Int :=
  ((table.filter (fun r => decide (r.id = hydroid))).map Reach.down).headD 0

/-- Unpadded connectivity row appended to `list_all` in the scan loop:
HydroID, NextDownID with -1 replaced by 0, the upstream count, then the
upstream HydroIDs (`NUM.concatenate([NUM.array([hydroid,nextDownID,
count_upstream]),list_upstreamID])`). -/
def rowFor (table : List Reach) (hydroid : Int) : List Int :=
  hydroid ::
    (if firstNextDownID table hydroid = -1 then 0 else firstNextDownID table hydroid) ::
      ((list_upstreamID table hydroid).length : Int) ::
        list_upstreamID table hydroid

/-- The list `list_all` built by the scan loop: one unpadded row per entry
of the sorted HydroID column. -/
def list_all (table : List Reach) : List (List Int) :=
  (sortedIds table).map (rowFor table)

/-- Running maximum of the upstream counts taken over the scan loop
(`max_count_Upstream`), starting from 0. -/
def max_count_Upstream (table : List Reach) : Nat :=
  (sortedIds table).foldl (fun m h => max m (list_upstreamID table h).length) 0

/-- Width used for padding: the caller-supplied `max_nbr_upstreams` when
present, else the observed maximum upstream count (the
`if in_max_nbr_upstreams == None` branch of `execute`). -/
def widthUsed (table : List Reach) (in_max_nbr_upstreams : Option Int) : Int :=
  match in_max_nbr_upstreams with
  | none => (max_count_Upstream table : Int)
  | some w => w

/-- Padding step of the writer loop: append
`[0 for i in xrange(in_max_nbr_upstreams - row_list[2])]` to one row.
In Python 2, `xrange` of a negative number is empty, hence the `toNat`
clamp; `row_list[2]` is the third field of the flat row. -/
def padRow (width : Int) (row_list : List Int) : List Int :=
  row_list ++ List.replicate (width - row_list.getD 2 0).toNat 0

/-- Rows written to the CSV file by `execute`: every row of `list_all`,
zero-padded to the width in use. -/
def execute (table : List Reach) (in_max_nbr_upstreams : Option Int) : List (List Int) :=
  (list_all table).map (padRow (widthUsed table in_max_nbr_upstreams))

/-- Validation of the third parameter in `updateMessages`: an error message
is set exactly when the parameter was altered and `max_nbr < 0 or
max_nbr > 12` holds (the message text itself reads "must be within
[1, 12]"). -/
def maxNbrErrorReported (altered : Bool) (max_nbr : Int) : Bool :=
  altered && (decide (max_nbr < 0) || decide (max_nbr > 12))

/-- Sum of the `upstream_count` column (third field) over a list of emitted
rows. -/
def sumUpstreamCounts (rows : List (List Int)) : Int :=
  (rows.map (fun row => row.getD 2 0)).sum

/-- The four-reach example network: 2 and 3 flow into 1 (an outlet), 4
flows into 2. -/
def exTable : List Reach :=
  [⟨1, -1⟩, ⟨2, 1⟩, ⟨3, 1⟩, ⟨4, 2⟩]

/-- A table with a duplicated HydroID whose first occurrence is an outlet
(NextDownID -1). -/
def exDup : List Reach :=
  [⟨1, -1⟩, ⟨1, 5⟩]

/-- Sorting the HydroID column only permutes it. -/
theorem sortedIds_perm (table : List Reach) : List.Perm (sortedIds table) (tableIds table) :=
  List.perm_insertionSort _ _

/-- The sorted HydroID column is weakly ascending. -/
theorem sortedIds_sorted (table : List Reach) : List.Sorted (· ≤ ·) (sortedIds table) :=
  List.sorted_insertionSort _ _

/-- A HydroID occurs in the sorted column exactly when it occurs in the
table. -/
theorem mem_sortedIds {table : List Reach} {h : Int} :
    h ∈ sortedIds table ↔ h ∈ tableIds table :=
  (sortedIds_perm table).mem_iff

/-- Unfolding of `execute`: one padded row per sorted HydroID, the padding
length clamped at zero. -/
theorem execute_eq_map (table : List Reach) (ov : Option Int) :
    execute table ov = (sortedIds table).map (fun h =>
      rowFor table h ++
        List.replicate
          ((widthUsed table ov - ((list_upstreamID table h).length : Int)).toNat) 0) := by
  unfold execute list_all
  rw [List.map_map]
  rfl

/-- Membership in the output of `execute`. -/
theorem mem_execute {table : List Reach} {ov : Option Int} {row : List Int} :
    row ∈ execute table ov ↔ ∃ h ∈ sortedIds table,
      row = rowFor table h ++
        List.replicate
          ((widthUsed table ov - ((list_upstreamID table h).length : Int)).toNat) 0 := by
  rw [execute_eq_map]
  simp [List.mem_map, eq_comm]

/-- Length of an unpadded row: three header fields plus the upstream IDs. -/
theorem rowFor_length (table : List Reach) (h : Int) :
    (rowFor table h).length = 3 + (list_upstreamID table h).length := by
  simp [rowFor]
  omega

/-- First field of a padded row is the HydroID. -/
theorem rowFor_append_getD0 (table : List Reach) (h : Int) (p : List Int) :
    ((rowFor table h ++ p).getD 0 0) = h :=
  rfl

/-- Second field of a padded row is the normalized NextDownID. -/
theorem rowFor_append_getD1 (table : List Reach) (h : Int) (p : List Int) :
    ((rowFor table h ++ p).getD 1 0) =
      (if firstNextDownID table h = -1 then 0 else firstNextDownID table h) :=
  rfl

/-- Third field of a padded row is the upstream count. -/
theorem rowFor_append_getD2 (table : List Reach) (h : Int) (p : List Int) :
    ((rowFor table h ++ p).getD 2 0) = ((list_upstreamID table h).length : Int) :=
  rfl

/-- With pairwise-distinct HydroIDs, selecting the rows that carry the
HydroID of a table row `r` selects exactly `[r]`. -/
theorem filter_id_eq_single {table : List Reach} (hnd : (tableIds table).Nodup)
    {r : Reach} (hr : r ∈ table) :
    table.filter (fun x => decide (x.id = r.id)) = [r] := by
  induction table with
  | nil => cases hr
  | cons a rest ih =>
    rw [tableIds, List.map_cons, List.nodup_cons] at hnd
    rcases List.mem_cons.mp hr with hra | hrest
    · subst hra
      rw [List.filter_cons_of_pos (by simp)]
      congr 1
      rw [List.filter_eq_nil_iff]
      intro x hx
      simp only [decide_eq_true_eq]
      exact fun hxe => hnd.1 (hxe ▸ List.mem_map_of_mem Reach.id hx)
    · have hne : a.id ≠ r.id := by
        intro he
        exact hnd.1 (he ▸ List.mem_map_of_mem Reach.id hrest)
      rw [List.filter_cons_of_neg (by simpa using hne)]
      exact ih hnd.2 hrest

/-- With pairwise-distinct HydroIDs, the NextDownID looked up for a table
row is that row's own NextDownID. -/
theorem firstNextDownID_of_nodup {table : List Reach} (hnd : (tableIds table).Nodup)
    {r : Reach} (hr : r ∈ table) :
    firstNextDownID table r.id = r.down := by
  rw [firstNextDownID, filter_id_eq_single hnd hr]
  rfl

/-- C1: on the example reach set {(1,-1), (2,1), (3,1), (4,2)} with no
width override, `execute` emits exactly the four rows [1,0,2,2,3],
[2,1,1,4,0], [3,1,0,0,0], [4,2,0,0,0], in that order (width = max fan-in
= 2). -/
theorem C1_example_output :
    execute exTable none =
      [[1, 0, 2, 2, 3], [2, 1, 1, 4, 0], [3, 1, 0, 0, 0], [4, 2, 0, 0, 0]] := by
  decide

/-- C2 (counterexample): with width override 1 on the example network, the
run does not fail: it emits a complete output, and the overflowing row of
reach 1 (upstream count 2) is written with both of its upstream IDs and no
padding, as the five-field row [1,0,2,2,3]. -/
theorem C2_counterexample :
    execute exTable (some 1) =
      [[1, 0, 2, 2, 3], [2, 1, 1, 4], [3, 1, 0, 0], [4, 2, 0, 0]] ∧
    [1, 0, 2, 2, 3] ∈ execute exTable (some 1) := by
  decide

/-- C2 (amended): for every table and every caller-supplied width bound,
the transform raises no error; each emitted row starts with the complete
unpadded row for its HydroID — every upstream ID present, never truncated
— followed only by zero padding of clamped length (bound minus count, or
nothing when the count exceeds the bound). -/
theorem C2_no_truncation (table : List Reach) (w : Int) (row : List Int)
    (hrow : row ∈ execute table (some w)) :
    ∃ h ∈ sortedIds table,
      row.take (3 + (list_upstreamID table h).length) = rowFor table h ∧
      row.drop (3 + (list_upstreamID table h).length) =
        List.replicate ((w - ((list_upstreamID table h).length : Int)).toNat) 0 := by
  rcases mem_execute.mp hrow with ⟨h, hmem, rfl⟩
  refine ⟨h, hmem, ?_, ?_⟩
  · rw [← rowFor_length, List.take_left]
  · rw [← rowFor_length, List.drop_left]
    rfl

/-- Witness for C2 (amended) at the example network with bound 1 and the
overflowing row of reach 1. -/
theorem C2_no_truncation_witness :
    [1, 0, 2, 2, 3] ∈ execute exTable (some 1) ∧
    ∃ h ∈ sortedIds exTable,
      ([1, 0, 2, 2, 3] : List Int).take (3 + (list_upstreamID exTable h).length) =
        rowFor exTable h ∧
      ([1, 0, 2, 2, 3] : List Int).drop (3 + (list_upstreamID exTable h).length) =
        List.replicate (((1 : Int) - ((list_upstreamID exTable h).length : Int)).toNat) 0 :=
  ⟨by decide, C2_no_truncation exTable 1 [1, 0, 2, 2, 3] (by decide)⟩

/-- C3 (counterexample): with width override 1 on the example network, not
every emitted row has 3 + width = 4 fields; the row of reach 1 has 5. -/
theorem C3_counterexample :
    ¬ ∀ row ∈ execute exTable (some 1),
      (row.length : Int) = 3 + widthUsed exTable (some 1) := by
  decide

/-- C3 (amended): the width in use is the caller-supplied bound when one is
provided and the maximum observed upstream count otherwise; and every
emitted row — for the reach named by its own first field — has exactly
3 + max (width, that reach's upstream count) fields, so all rows have
exactly 3 + width fields whenever no reach's upstream count exceeds the
width, in particular always when no bound is given. -/
theorem C3_row_lengths (table : List Reach) (ov : Option Int) (_hne : table ≠ []) :
    widthUsed table none = (max_count_Upstream table : Int) ∧
    (∀ w : Int, widthUsed table (some w) = w) ∧
    ∀ row ∈ execute table ov, ∃ h ∈ sortedIds table,
      row.getD 0 0 = h ∧
      (row.length : Int) =
        3 + max (widthUsed table ov) ((list_upstreamID table h).length : Int) := by
  refine ⟨rfl, fun w => rfl, ?_⟩
  intro row hrow
  rcases mem_execute.mp hrow with ⟨h, hmem, rfl⟩
  refine ⟨h, hmem, rowFor_append_getD0 table h _, ?_⟩
  rw [List.length_append, rowFor_length, List.length_replicate]
  rcases le_total (widthUsed table ov) ((list_upstreamID table h).length : Int) with hle | hle
  · rw [max_eq_right hle]
    push_cast
    omega
  · rw [max_eq_left hle]
    push_cast
    omega

/-- Witness for C3 (amended) at the example network with no bound. -/
theorem C3_row_lengths_witness :
    exTable ≠ [] ∧
    (widthUsed exTable none = (max_count_Upstream exTable : Int) ∧
      (∀ w : Int, widthUsed exTable (some w) = w) ∧
      ∀ row ∈ execute exTable none, ∃ h ∈ sortedIds exTable,
        row.getD 0 0 = h ∧
        (row.length : Int) =
          3 + max (widthUsed exTable none) ((list_upstreamID exTable h).length : Int)) :=
  ⟨by decide, C3_row_lengths exTable none (by decide)⟩

/-- C4: with pairwise-distinct HydroIDs, the second field of the output row
of a reach equals that reach's NextDownID, except that the sentinel -1 is
emitted as 0. -/
theorem C4_downstream_normalized (table : List Reach) (ov : Option Int)
    (hnd : (tableIds table).Nodup) (r : Reach) (hr : r ∈ table)
    (row : List Int) (hrow : row ∈ execute table ov) (hid : row.getD 0 0 = r.id) :
    row.getD 1 0 = if r.down = -1 then 0 else r.down := by
  rcases mem_execute.mp hrow with ⟨h, _hmem, rfl⟩
  rw [rowFor_append_getD0] at hid
  subst hid
  rw [rowFor_append_getD1, firstNextDownID_of_nodup hnd hr]

/-- Witness for C4 at the example network: reach 1 has NextDownID -1 and
its row carries 0. -/
theorem C4_downstream_normalized_witness :
    (tableIds exTable).Nodup ∧ (⟨1, -1⟩ : Reach) ∈ exTable ∧
    [1, 0, 2, 2, 3] ∈ execute exTable none ∧
    ([1, 0, 2, 2, 3] : List Int).getD 0 0 = (⟨1, -1⟩ : Reach).id ∧
    ([1, 0, 2, 2, 3] : List Int).getD 1 0 =
      (if (⟨1, -1⟩ : Reach).down = -1 then 0 else (⟨1, -1⟩ : Reach).down) :=
  ⟨by decide, by decide, by decide, by decide,
    C4_downstream_normalized exTable none (by decide) ⟨1, -1⟩ (by decide)
      [1, 0, 2, 2, 3] (by decide) (by decide)⟩

/-- C5: for a non-empty table with pairwise-distinct HydroIDs, `execute`
emits exactly one row per input reach, and each reach's HydroID heads
exactly one output row. -/
theorem C5_one_row_per_reach (table : List Reach) (ov : Option Int)
    (_hne : table ≠ []) (hnd : (tableIds table).Nodup) :
    (execute table ov).length = table.length ∧
    ∀ r ∈ table,
      ((execute table ov).filter (fun row => decide (row.getD 0 0 = r.id))).length = 1 := by
  constructor
  · rw [execute_eq_map, List.length_map, (sortedIds_perm table).length_eq,
      tableIds, List.length_map]
  · intro r hr
    rw [execute_eq_map, List.filter_map, List.length_map]
    have hq : ∀ h ∈ sortedIds table,
        ((fun row => decide (List.getD row 0 0 = r.id)) ∘ (fun h =>
          rowFor table h ++
            List.replicate
              ((widthUsed table ov - ((list_upstreamID table h).length : Int)).toNat) 0)) h =
          (fun h => decide (h = r.id)) h := fun h _ => rfl
    rw [List.filter_congr hq, ((sortedIds_perm table).filter _).length_eq,
      tableIds, List.filter_map]
    have hq2 : ∀ x ∈ table, ((fun h => decide (h = r.id)) ∘ Reach.id) x =
        (fun x => decide (x.id = r.id)) x := fun x _ => rfl
    rw [List.filter_congr hq2, filter_id_eq_single hnd hr]
    rfl

/-- Witness for C5 at the example network with no bound. -/
theorem C5_one_row_per_reach_witness :
    exTable ≠ [] ∧ (tableIds exTable).Nodup ∧
    ((execute exTable none).length = exTable.length ∧
      ∀ r ∈ exTable,
        ((execute exTable none).filter
          (fun row => decide (row.getD 0 0 = r.id))).length = 1) :=
  ⟨by decide, by decide, C5_one_row_per_reach exTable none (by decide) (by decide)⟩

/-- C6: with pairwise-distinct HydroIDs, the first-column values of the
output rows are strictly increasing, whatever the order of the input
table rows. -/
theorem C6_rows_strictly_ascending (table : List Reach) (ov : Option Int)
    (hnd : (tableIds table).Nodup) :
    List.Pairwise (· < ·) ((execute table ov).map (fun row => row.getD 0 0)) := by
  have hmap : (execute table ov).map (fun row => row.getD 0 0) = sortedIds table := by
    rw [execute_eq_map, List.map_map]
    exact (List.map_congr_left (fun h _ => rfl)).trans (List.map_id _)
  rw [hmap]
  exact (sortedIds_sorted table).lt_of_le ((sortedIds_perm table).nodup_iff.mpr hnd)

/-- Witness for C6 at the example network given in reverse input order. -/
theorem C6_rows_strictly_ascending_witness :
    (tableIds [⟨4, 2⟩, ⟨3, 1⟩, ⟨2, 1⟩, ⟨1, -1⟩]).Nodup ∧
    List.Pairwise (· < ·)
      ((execute [⟨4, 2⟩, ⟨3, 1⟩, ⟨2, 1⟩, ⟨1, -1⟩] none).map (fun row => row.getD 0 0)) :=
  ⟨by decide, C6_rows_strictly_ascending [⟨4, 2⟩, ⟨3, 1⟩, ⟨2, 1⟩, ⟨1, -1⟩] none (by decide)⟩

/-- C10: with pairwise-distinct HydroIDs, a NextDownID other than the
sentinel -1 — negative or matching no reach — is emitted unchanged in the
second field of the reach's row. -/
theorem C10_only_sentinel_normalized (table : List Reach) (ov : Option Int)
    (hnd : (tableIds table).Nodup) (r : Reach) (hr : r ∈ table) (hneq : r.down ≠ -1)
    (row : List Int) (hrow : row ∈ execute table ov) (hid : row.getD 0 0 = r.id) :
    row.getD 1 0 = r.down := by
  rcases mem_execute.mp hrow with ⟨h, _hmem, rfl⟩
  rw [rowFor_append_getD0] at hid
  subst hid
  rw [rowFor_append_getD1, firstNextDownID_of_nodup hnd hr, if_neg hneq]

/-- Witness for C10: NextDownID -2 (not the sentinel, not a reach ID) is
emitted unchanged. -/
theorem C10_only_sentinel_normalized_witness :
    (tableIds [⟨1, -2⟩, ⟨2, 99⟩]).Nodup ∧ (⟨1, -2⟩ : Reach) ∈ [⟨1, -2⟩, ⟨2, 99⟩] ∧
    (⟨1, -2⟩ : Reach).down ≠ -1 ∧
    [1, -2, 0] ∈ execute [⟨1, -2⟩, ⟨2, 99⟩] none ∧
    ([1, -2, 0] : List Int).getD 0 0 = (⟨1, -2⟩ : Reach).id ∧
    ([1, -2, 0] : List Int).getD 1 0 = (⟨1, -2⟩ : Reach).down :=
  ⟨by decide, by decide, by decide, by decide, by decide,
    C10_only_sentinel_normalized [⟨1, -2⟩, ⟨2, 99⟩] none (by decide) ⟨1, -2⟩ (by decide)
      (by decide) [1, -2, 0] (by decide) (by decide)⟩

/-- Counting matches of a disjunction of two pointwise-exclusive Boolean
predicates splits into the two separate counts. -/
theorem countP_or_disjoint {α : Type} (p q : α → Bool) (l : List α)
    (hdisj : ∀ a ∈ l, ¬(p a = true ∧ q a = true)) :
    l.countP (fun a => p a || q a) = l.countP p + l.countP q := by
  induction l with
  | nil => rfl
  | cons a rest ih =>
    have hd := hdisj a (List.mem_cons_self a rest)
    have ih2 := ih (fun x hx => hdisj x (List.mem_cons_of_mem a hx))
    rw [List.countP_cons, List.countP_cons, List.countP_cons, ih2]
    by_cases hpa : p a = true
    · have hqa : q a = false := by
        cases hqb : q a
        · rfl
        · exact absurd ⟨hpa, hqb⟩ hd
      simp [hpa, hqa]
      omega
    · have hpa2 : p a = false := by
        cases hpb : p a
        · rfl
        · exact absurd hpb hpa
      cases hqb : q a
      · simp [hpa2, hqb]
      · simp [hpa2, hqb]
        omega

/-- Summing, over a duplicate-free list of HydroIDs, the number of table
rows draining to each, counts every table row whose NextDownID occurs in
the list, each such row exactly once. -/
theorem sum_counts_nodup (t : List Reach) (ids : List Int) (hnd : ids.Nodup) :
    (ids.map (fun i => (t.filter (fun r => decide (r.down = i))).length)).sum =
      (t.filter (fun r => decide (r.down ∈ ids))).length := by
  induction ids with
  | nil => simp
  | cons i rest ih =>
    rw [List.nodup_cons] at hnd
    rw [List.map_cons, List.sum_cons, ih hnd.2]
    have hd : ∀ r ∈ t,
        ¬(decide (r.down = i) = true ∧ decide (r.down ∈ rest) = true) := by
      intro r _ hand
      exact hnd.1 ((decide_eq_true_eq.mp hand.1) ▸ (decide_eq_true_eq.mp hand.2))
    have hsplit := countP_or_disjoint (fun r => decide (r.down = i))
      (fun r => decide (r.down ∈ rest)) t hd
    rw [← List.countP_eq_length_filter, ← List.countP_eq_length_filter,
      ← List.countP_eq_length_filter, ← hsplit]
    refine List.countP_congr (fun r _ => ?_)
    rw [show (decide (r.down ∈ i :: rest)) =
        (decide (r.down = i) || decide (r.down ∈ rest)) from
      (decide_eq_decide.mpr List.mem_cons).trans (Bool.decide_or _ _)]

/-- C7 (counterexample): the single-reach table {(1,1)} has a unique
HydroID, yet the upstream counts sum to 1 while no reach's NextDownID
equals some other reach's HydroID (reach 1 drains to itself). -/
theorem C7_counterexample :
    (tableIds [⟨1, 1⟩]).Nodup ∧
    sumUpstreamCounts (execute [⟨1, 1⟩] none) = 1 ∧
    (([⟨1, 1⟩] : List Reach).filter
      (fun r => decide (∃ s ∈ ([⟨1, 1⟩] : List Reach), s ≠ r ∧ s.id = r.down))).length = 0 := by
  decide

/-- C7 (amended): with pairwise-distinct HydroIDs, the upstream counts of
the emitted rows sum to the number of table reaches whose NextDownID
equals some reach's HydroID, its own included — each drainage edge is
counted exactly once. -/
theorem C7_sum_of_counts (table : List Reach) (ov : Option Int)
    (hnd : (tableIds table).Nodup) :
    sumUpstreamCounts (execute table ov) =
      ((table.filter (fun r => decide (r.down ∈ tableIds table))).length : Int) := by
  rw [sumUpstreamCounts, execute_eq_map, List.map_map]
  have h1 : ((sortedIds table).map ((fun row => List.getD row 2 0) ∘ (fun h =>
        rowFor table h ++
          List.replicate
            ((widthUsed table ov - ((list_upstreamID table h).length : Int)).toNat) 0))) =
      (sortedIds table).map (fun h => ((list_upstreamID table h).length : Int)) :=
    List.map_congr_left (fun h _ => rfl)
  have h2 : ((sortedIds table).map (fun h => ((list_upstreamID table h).length : Int))) =
      (sortedIds table).map (fun h =>
        (((table.filter (fun r => decide (r.down = h))).length : Nat) : Int)) :=
    List.map_congr_left (fun h _ => by rw [list_upstreamID, List.length_map])
  rw [h1, h2, ((sortedIds_perm table).map _).sum_eq]
  have h4 : ((tableIds table).map (fun h =>
      (((table.filter (fun r => decide (r.down = h))).length : Nat) : Int))).sum =
      ((((tableIds table).map (fun h =>
        (table.filter (fun r => decide (r.down = h))).length)).sum : Nat) : Int) := by
    rw [Nat.cast_list_sum, List.map_map]
    rfl
  rw [h4, sum_counts_nodup table (tableIds table) hnd]

/-- Witness for C7 (amended) at the example network: counts sum to 3, the
three non-outlet reaches each drain to another reach's HydroID. -/
theorem C7_sum_of_counts_witness :
    (tableIds exTable).Nodup ∧
    sumUpstreamCounts (execute exTable none) =
      ((exTable.filter (fun r => decide (r.down ∈ tableIds exTable))).length : Int) :=
  ⟨by decide, C7_sum_of_counts exTable none (by decide)⟩

/-- C8: the tool's `updateMessages` validation does not flag the altered
value 0 — its test is `max_nbr < 0 or max_nbr > 12` — although 0 lies
outside the range [1, 12] named by its own error message. -/
theorem C8_zero_passes_validation :
    maxNbrErrorReported true 0 = false ∧ ¬(1 ≤ (0 : Int) ∧ (0 : Int) ≤ 12) := by
  decide

/-- C9 (counterexample): on the duplicated table {(1,-1), (1,5)}, both
rows for HydroID 1 carry 0 in the second field, not the NextDownID -1 of
the first table row bearing that ID: the sentinel is normalized even for
duplicate rows. -/
theorem C9_counterexample :
    (execute exDup none).map (fun row => row.getD 1 0) = [0, 0] ∧
    (exDup.headD ⟨0, 0⟩).down = -1 ∧ ((0 : Int) ≠ -1) := by
  decide

/-- C9 (amended): duplicated HydroIDs raise no error: a HydroID occurring
k times in the table heads exactly k output rows, and every such row's
second field is the NextDownID of the first table row bearing that ID,
normalized by the sentinel rule (-1 emitted as 0). -/
theorem C9_duplicate_ids (table : List Reach) (ov : Option Int) (i : Int)
    (_hi : i ∈ tableIds table) :
    ((execute table ov).filter (fun row => decide (row.getD 0 0 = i))).length =
      (tableIds table).count i ∧
    ∀ row ∈ execute table ov, row.getD 0 0 = i →
      row.getD 1 0 =
        (if firstNextDownID table i = -1 then 0 else firstNextDownID table i) := by
  constructor
  · rw [execute_eq_map, List.filter_map, List.length_map]
    have hq : ∀ h ∈ sortedIds table,
        ((fun row => decide (List.getD row 0 0 = i)) ∘ (fun h =>
          rowFor table h ++
            List.replicate
              ((widthUsed table ov - ((list_upstreamID table h).length : Int)).toNat) 0)) h =
          (fun h => decide (h = i)) h := fun h _ => rfl
    rw [List.filter_congr hq, ((sortedIds_perm table).filter _).length_eq,
      ← List.countP_eq_length_filter, ← (sortedIds_perm table).countP_eq]
    rw [List.count, (sortedIds_perm table).countP_eq]
    refine List.countP_congr (fun h _ => ?_)
    simp [beq_iff_eq]
  · intro row hrow hid
    rcases mem_execute.mp hrow with ⟨h, _hm, rfl⟩
    rw [rowFor_append_getD0] at hid
    subst hid
    rw [rowFor_append_getD1]

/-- Witness for C9 (amended) on the duplicated table {(1,-1), (1,5)}. -/
theorem C9_duplicate_ids_witness :
    (1 : Int) ∈ tableIds exDup ∧
    (((execute exDup none).filter (fun row => decide (row.getD 0 0 = 1))).length =
      (tableIds exDup).count 1 ∧
    ∀ row ∈ execute exDup none, row.getD 0 0 = 1 →
      row.getD 1 0 =
        (if firstNextDownID exDup 1 = -1 then 0 else firstNextDownID exDup 1)) :=
  ⟨by decide, C9_duplicate_ids exDup none 1 (by decide)⟩
